import Mathlib

/-!
Shallow embedding of the protocol core of the bmw-diagnostic-tool repository.

Bytes are modelled as `Nat`; wherever the Rust source relies on machine-width
behaviour (`wrapping_add` on `u8`, `as u8` / `as u16` casts, `u16` sums) the
embedding inserts an explicit `% 256` or `% 65536` reduction.  Byte buffers
are `List Nat`, indexed reads become `List.getD`, and fallible operations
return `Option` or `Except String`, mirroring the source.  Definitions follow
the Rust functions they are named after; definitions whose doc comment says
so are spec-side restatements used only on the right-hand side of theorems.
-/

/-- Wrapping `u8` checksum used by the daemon KWP2000 code
(`bytes.iter().fold(0u8, |acc, b| acc.wrapping_add(b))` in
daemon-ftdi/src/kwp2000.rs): running sum of all bytes modulo 256. -/
def checksum8 (l : List Nat) : Nat :=
  l.foldl (fun acc b => (acc + b) % 256) 0

/-- KWP2000 message (daemon-ftdi/src/kwp2000.rs, `struct KwpMessage`). -/
structure KwpMessage where
  source : Nat
  target : Nat
  data : List Nat
deriving DecidableEq

/-- KWP2000 parsed response (daemon-ftdi/src/kwp2000.rs, `struct KwpResponse`). -/
structure KwpResponse where
  source : Nat
  target : Nat
  service : Nat
  data : List Nat
deriving DecidableEq

/-- Encoder `KwpMessage::to_bytes` (daemon-ftdi/src/kwp2000.rs).  Payloads
longer than 255 bytes are truncated (the source logs a warning and keeps the
first 255 bytes); length ≤ 63 stores the length inside the format byte,
otherwise format 0xC0 is followed by a separate length byte. -/
def KwpMessage.to_bytes (m : KwpMessage) : List Nat :=
  let length := m.data.length
  let effective_length := min length 255
  let header :=
    if effective_length ≤ 63 then
      [0x80 ||| effective_length, m.target, m.source]
    else
      [0xC0, m.target, m.source, effective_length % 256]
  let body := header ++ m.data.take effective_length
  body ++ [checksum8 body]

/-- Decoder `KwpResponse::parse` (daemon-ftdi/src/kwp2000.rs): header-format
dispatch, completeness check, checksum verification, then extraction of
service byte and remaining data. -/
def KwpResponse.parse (data : List Nat) : Option KwpResponse :=
  if data.length < 4 then none else
  let fmt := data.getD 0 0
  let target := data.getD 1 0
  let source := data.getD 2 0
  let header : Option (Nat × Nat) :=
    if 0xC0 ≤ fmt then
      if data.length < 5 then none else some (data.getD 3 0, 4)
    else if 0x80 ≤ fmt then
      some (fmt &&& 0x3F, 3)
    else none
  match header with
  | none => none
  | some (data_length, data_start) =>
    let total_length := data_start + data_length + 1
    if data.length < total_length then none else
    let calc_checksum := checksum8 (data.take (total_length - 1))
    let recv_checksum := data.getD (total_length - 1) 0
    if calc_checksum ≠ recv_checksum then none else
    let response_data := (data.drop data_start).take data_length
    if response_data.isEmpty then none else
    some ⟨source, target, response_data.headI, response_data.tail⟩

/-- App-side K-Line message (app/src-tauri/src/kline.rs, `struct KLineMessage`). -/
structure KLineMessage where
  format : Nat
  target : Nat
  source : Nat
  data : List Nat
  checksum : Nat
deriving DecidableEq

/-- `KLineMessage::calculate_checksum` (app/src-tauri/src/kline.rs): the sum
is accumulated in a `u16` (wrapping modulo 65536) and masked to the low byte. -/
def KLineMessage.calculate_checksum (m : KLineMessage) : Nat :=
  (m.data.foldl (fun s b => (s + b) % 65536)
      ((m.format + m.target + m.source) % 65536)) &&& 0xFF

/-- `KLineMessage::new` (app/src-tauri/src/kline.rs): for payloads shorter
than 64 bytes the length is OR-ed into the format byte; otherwise the format
byte stays 0x80 (the source comment says the length goes in a separate byte,
but `to_bytes` below never emits one). -/
def KLineMessage.new (target source : Nat) (data : List Nat) : KLineMessage :=
  let format := if data.length < 64 then 0x80 ||| data.length else 0x80
  let m : KLineMessage := ⟨format, target, source, data, 0⟩
  { m with checksum := m.calculate_checksum }

/-- `KLineMessage::to_bytes` (app/src-tauri/src/kline.rs): format, target,
source, payload, checksum — with no separate length byte in any case. -/
def KLineMessage.to_bytes (m : KLineMessage) : List Nat :=
  m.format :: m.target :: m.source :: (m.data ++ [m.checksum])

/-- ISO-TP frame (app/src-tauri/src/dcan.rs, `struct IsoTpFrame`). -/
structure IsoTpFrame where
  frame_type : Nat
  data : List Nat
  sequence : Option Nat
  total_length : Option Nat
deriving DecidableEq

/-- `IsoTpFrame::single` (app/src-tauri/src/dcan.rs): rejects payloads longer
than 7 bytes. -/
def IsoTpFrame.single (data : List Nat) : Except String IsoTpFrame :=
  if data.length > 7 then .error "Data too long for single frame"
  else .ok ⟨0x00, data, none, none⟩

/-- `IsoTpFrame::first` (app/src-tauri/src/dcan.rs): keeps the first
`6.min(data.len())` bytes and records the announced total length. -/
def IsoTpFrame.first (data : List Nat) (total_length : Nat) : IsoTpFrame :=
  ⟨0x10, data.take (min 6 data.length), none, some total_length⟩

/-- `IsoTpFrame::consecutive` (app/src-tauri/src/dcan.rs): sequence number is
masked to its low nibble. -/
def IsoTpFrame.consecutive (data : List Nat) (seq : Nat) : IsoTpFrame :=
  ⟨0x20, data, some (seq &&& 0x0F), none⟩

/-- `IsoTpFrame::flow_control` (app/src-tauri/src/dcan.rs). -/
def IsoTpFrame.flow_control (flag block_size separation_time : Nat) : IsoTpFrame :=
  ⟨0x30, [flag, block_size, separation_time], none, none⟩

/-- Zero-initialised 8-byte CAN data buffer whose written prefix is `l`
(models `let mut data = [0x00u8; 8]` followed by indexed writes, with the
source's index guards reflected by the `List.take` at each call site). -/
def pad8 (l : List Nat) : List Nat :=
  (l ++ List.replicate 8 0).take 8

/-- `IsoTpFrame::to_can_data` (app/src-tauri/src/dcan.rs): serialises a frame
into the 8 CAN data bytes, dispatching on the top nibble of `frame_type`. -/
def IsoTpFrame.to_can_data (f : IsoTpFrame) : List Nat :=
  if f.frame_type &&& 0xF0 = 0x00 then
    pad8 ((f.data.length % 256) :: f.data.take 7)
  else if f.frame_type &&& 0xF0 = 0x10 then
    let len := f.total_length.getD 0
    pad8 ((0x10 ||| (((len >>> 8) % 256) &&& 0x0F)) :: (len &&& 0xFF) :: f.data.take 6)
  else if f.frame_type &&& 0xF0 = 0x20 then
    pad8 ((0x20 ||| ((f.sequence.getD 0) &&& 0x0F)) :: f.data.take 7)
  else if f.frame_type &&& 0xF0 = 0x30 then
    pad8 [0x30 ||| ((f.data.headD 0) &&& 0x0F), f.data.getD 1 0, f.data.getD 2 0]
  else
    List.replicate 8 0

/-- `IsoTpFrame::from_can_data` (app/src-tauri/src/dcan.rs): parses the 8 CAN
data bytes back into a frame. -/
def IsoTpFrame.from_can_data (data : List Nat) : Except String IsoTpFrame :=
  match data with
  | [] => .error "Empty data"
  | pci :: _ =>
    let frame_type := pci &&& 0xF0
    if frame_type = 0x00 then
      let len := pci &&& 0x0F
      if data.length < len + 1 then .error "Data too short for single frame"
      else .ok ⟨0x00, (data.drop 1).take len, none, none⟩
    else if frame_type = 0x10 then
      if data.length < 8 then .error "Data too short for first frame"
      else .ok ⟨0x10, (data.drop 2).take 6, none,
                some (((pci &&& 0x0F) <<< 8) ||| data.getD 1 0)⟩
    else if frame_type = 0x20 then
      .ok ⟨0x20, data.drop 1, some (pci &&& 0x0F), none⟩
    else if frame_type = 0x30 then
      .ok ⟨0x30, [pci &&& 0x0F, data.getD 1 0, data.getD 2 0], none, none⟩
    else .error "Unknown frame type"

/-- Consecutive-frame emission loop of `DCanHandler::send_message`
(app/src-tauri/src/dcan.rs): chunks of up to 7 bytes, sequence starting at the
given value and stepped by `(seq + 1) & 0x0F` after each frame. -/
def cfFrames (rest : List Nat) (seq : Nat) : List (List Nat) :=
  if rest = [] then []
  else (IsoTpFrame.consecutive (rest.take 7) seq).to_can_data ::
       cfFrames (rest.drop 7) ((seq + 1) &&& 0x0F)
termination_by rest.length
decreasing_by
  simp only [List.length_drop]
  have hp : 0 < rest.length := List.length_pos.mpr (by assumption)
  omega

/-- Frame-production side of `DCanHandler::send_message`
(app/src-tauri/src/dcan.rs): the CAN frames written for a payload.  Payloads
of at most 7 bytes yield one Single Frame; longer payloads yield a First
Frame (total length cast `as u16`, first 6 bytes) followed by the consecutive
frames starting at sequence 1.  The flow-control exchange after the First
Frame is a receive (here assumed granted with flag Continue), not a frame
production, so it does not appear in the emitted list. -/
def sendFrames (data : List Nat) : Except String (List (List Nat)) :=
  if data.isEmpty then .error "Empty data"
  else if data.length ≤ 7 then
    (IsoTpFrame.single data).map (fun f => [f.to_can_data])
  else
    .ok ((IsoTpFrame.first data (data.length % 65536)).to_can_data ::
         cfFrames (data.drop 6) 1)

/-- Wire state seen by the ISO-TP receive path: the frames still to be
delivered on the expected CAN identifier, and the frames the code has
transmitted (`send_can_frame` calls append to `sent`). -/
structure Wire where
  inbox : List (List Nat)
  sent : List (List Nat)
deriving DecidableEq

/-- Consecutive-frame accumulation loop of `DCanHandler::receive_isotp_message`
(app/src-tauri/src/dcan.rs): while fewer than `total_len` bytes have been
collected, read a frame (an empty inbox is the read timeout), require a
Consecutive Frame with the expected sequence number, append its 7 data bytes,
and step the expectation by `(expected + 1) & 0x0F`; on exit truncate to
`total_len`. -/
def recvCFs (inbox sent : List (List Nat)) (result : List Nat)
    (total_len expected_seq : Nat) : Except String (List Nat) × Wire :=
  if result.length < total_len then
    match inbox with
    | [] => (.error "Timeout waiting for CAN frame", ⟨[], sent⟩)
    | f :: rest =>
      match IsoTpFrame.from_can_data f with
      | .error e => (.error e, ⟨rest, sent⟩)
      | .ok cf =>
        if cf.frame_type ≠ 0x20 then
          (.error "Expected consecutive frame", ⟨rest, sent⟩)
        else if cf.sequence.getD 0 ≠ expected_seq then
          (.error "Sequence error", ⟨rest, sent⟩)
        else
          recvCFs rest sent (result ++ cf.data) total_len ((expected_seq + 1) &&& 0x0F)
  else (.ok (result.take total_len), ⟨inbox, sent⟩)

/-- `DCanHandler::receive_isotp_message` (app/src-tauri/src/dcan.rs): reads
the initial frame; a Single Frame returns its data directly; a First Frame
seeds the buffer with its 6 bytes and enters the consecutive-frame loop.  The
source constructs a flow-control frame at that point (`let _fc = ...`) but
never transmits it — `_fc` below mirrors that unused binding; nothing is ever
appended to `sent`. -/
def receive_isotp_message (w : Wire) : Except String (List Nat) × Wire :=
  match w.inbox with
  | [] => (.error "Timeout waiting for CAN frame", ⟨[], w.sent⟩)
  | f :: rest =>
    match IsoTpFrame.from_can_data f with
    | .error e => (.error e, ⟨rest, w.sent⟩)
    | .ok fr =>
      if fr.frame_type = 0x00 then (.ok fr.data, ⟨rest, w.sent⟩)
      else if fr.frame_type = 0x10 then
        let total_len := fr.total_length.getD 0
        let _fc := IsoTpFrame.flow_control 0 0 0
        recvCFs rest w.sent fr.data total_len 1
      else (.error "Unexpected frame type", ⟨rest, w.sent⟩)

/-- App DTC status flags (app/src-tauri/src/bmw.rs, `struct DtcStatus`). -/
structure DtcStatus where
  test_failed : Bool
  test_failed_this_cycle : Bool
  pending : Bool
  confirmed : Bool
  test_not_completed_since_clear : Bool
  test_failed_since_clear : Bool
  test_not_completed_this_cycle : Bool
  warning_indicator_requested : Bool
  raw : Nat
deriving DecidableEq

/-- `DtcStatus::from_byte` (app/src-tauri/src/bmw.rs): each flag is one bit of
the status byte; the byte itself is preserved in `raw`. -/
def DtcStatus.from_byte (byte : Nat) : DtcStatus :=
  ⟨byte &&& 0x01 != 0, byte &&& 0x02 != 0, byte &&& 0x04 != 0, byte &&& 0x08 != 0,
   byte &&& 0x10 != 0, byte &&& 0x20 != 0, byte &&& 0x40 != 0, byte &&& 0x80 != 0,
   byte⟩

/-- Daemon DTC status flags (daemon-ftdi/src/kline.rs, `struct DtcStatus`;
this variant has no `raw` field and names the top bit `warning_indicator`). -/
structure DaemonDtcStatus where
  test_failed : Bool
  test_failed_this_cycle : Bool
  pending : Bool
  confirmed : Bool
  test_not_completed_since_clear : Bool
  test_failed_since_clear : Bool
  test_not_completed_this_cycle : Bool
  warning_indicator : Bool
deriving DecidableEq

/-- `impl From for DtcStatus` (daemon-ftdi/src/kline.rs): bit-wise decode of
the status byte. -/
def DaemonDtcStatus.fromByte (status : Nat) : DaemonDtcStatus :=
  ⟨status &&& 0x01 != 0, status &&& 0x02 != 0, status &&& 0x04 != 0,
   status &&& 0x08 != 0, status &&& 0x10 != 0, status &&& 0x20 != 0,
   status &&& 0x40 != 0, status &&& 0x80 != 0⟩

/-- Uppercase hexadecimal digit character for a value below 16 (the digit
produced by Rust upper-hex formatting). -/
def hexDigit (n : Nat) : Char :=
  if n < 10 then Char.ofNat (48 + n) else Char.ofNat (55 + n)

/-- Single decimal digit character (Rust `Display` of a value below 10). -/
def decDigit (n : Nat) : Char :=
  Char.ofNat (48 + n)

/-- Rust `format` with specifier 04X for a value below 0x10000: exactly four
zero-padded uppercase hexadecimal digits.  Every call site in the source
passes a 14-bit value, for which this rendering is exact. -/
def rustHexPad4 (n : Nat) : List Char :=
  [hexDigit (n / 4096 % 16), hexDigit (n / 256 % 16),
   hexDigit (n / 16 % 16), hexDigit (n % 16)]

/-- `Dtc::bytes_to_code` (app/src-tauri/src/bmw.rs): category letter from the
top two bits of the high byte, then the remaining 14 bits rendered with the
04X format. -/
def Dtc.bytes_to_code (high low : Nat) : String :=
  let category : Char :=
    if (high >>> 6) &&& 0x03 = 0 then 'P'
    else if (high >>> 6) &&& 0x03 = 1 then 'C'
    else if (high >>> 6) &&& 0x03 = 2 then 'B'
    else if (high >>> 6) &&& 0x03 = 3 then 'U'
    else '?'
  let number := ((high &&& 0x3F) <<< 8) ||| low
  String.mk (category :: rustHexPad4 number)

/-- `decode_dtc` (daemon-ftdi/src/kline.rs): same decoding from the packed
16-bit code; the second digit (two bits, value 0–3) is printed with Display
and the remaining three nibbles with the X format, each a single digit. -/
def decode_dtc (code : Nat) : String :=
  let first_char : Char :=
    if (code >>> 14) &&& 0x03 = 0 then 'P'
    else if (code >>> 14) &&& 0x03 = 1 then 'C'
    else if (code >>> 14) &&& 0x03 = 2 then 'B'
    else if (code >>> 14) &&& 0x03 = 3 then 'U'
    else '?'
  let second_digit := (code >>> 12) &&& 0x03
  let third_digit := (code >>> 8) &&& 0x0F
  let fourth_digit := (code >>> 4) &&& 0x0F
  let fifth_digit := code &&& 0x0F
  String.mk [first_char, decDigit second_digit, hexDigit third_digit,
             hexDigit fourth_digit, hexDigit fifth_digit]

/-- Parsing loop of `KLine::read_dtcs` (daemon-ftdi/src/kline.rs): starting
at index 1 (after the count byte), read 3-byte triples while a full triple
remains (`i + 2 < data.len()`); a triple whose two code bytes are both zero
is skipped, otherwise the packed 16-bit code and the status byte are kept. -/
def dtc_triple_loop (data : List Nat) (i : Nat) : List (Nat × Nat) :=
  if i + 2 < data.length then
    let high := data.getD i 0
    let low := data.getD (i + 1) 0
    let status := data.getD (i + 2) 0
    if high ≠ 0 ∨ low ≠ 0 then
      ((high <<< 8) ||| low, status) :: dtc_triple_loop data (i + 3)
    else
      dtc_triple_loop data (i + 3)
  else []
termination_by data.length - i

/-- `KLine::read_dtcs` response parsing (daemon-ftdi/src/kline.rs): the loop
above runs only when the 0x58 response data has at least 2 bytes. -/
def read_dtcs_parse (data : List Nat) : List (Nat × Nat) :=
  if 2 ≤ data.length then dtc_triple_loop data 1 else []

/-- Spec-side restatement for C10: the consecutive 3-byte triples of a list
(ignoring a trailing partial chunk). -/
def dtcTriples : List Nat → List (Nat × Nat × Nat)
  | a :: b :: c :: rest => (a, b, c) :: dtcTriples rest
  | _ => []

/-- Security-access command result (app/src-tauri/src/bmw_commands.rs,
`struct SecurityResult`; the formatted detail text of failure messages is
elided). -/
structure SecurityResult where
  success : Bool
  level : Nat
  message : String
deriving DecidableEq

/-- `security::calculate_key_simple` (app/src-tauri/src/bmw.rs): placeholder
XOR of every seed byte with 0xCA. -/
def calculate_key_simple (seed : List Nat) : List Nat :=
  seed.map (fun b => b ^^^ 0xCA)

/-- `bmw_security_access` (app/src-tauri/src/bmw_commands.rs), abstracted
over the wire: `seed_response` is the payload answering the seed request and
`key_response` the payload answering the key request (if one is sent).  The
returned list collects the request payloads passed to
`KLineHandler::send_request`, in order.  An all-zero (or empty) seed after
the 0x67 positive response short-circuits to success with no key request;
otherwise the key is sent at sub-function `level + 1` (u8 addition). -/
def bmw_security_access (level : Nat) (seed_response key_response : List Nat) :
    SecurityResult × List (List Nat) :=
  let seed_request := [0x27, level]
  if seed_response.head? = some 0x7F then
    (⟨false, level, "Seed request rejected"⟩, [seed_request])
  else if seed_response.head? ≠ some 0x67 then
    (⟨false, level, "Unexpected seed response"⟩, [seed_request])
  else
    let seed := seed_response.drop 2
    if seed.all (fun b => b == 0) then
      (⟨true, level, "Already unlocked"⟩, [seed_request])
    else
      let key := calculate_key_simple seed
      let key_request := [0x27, (level + 1) % 256] ++ key
      if key_response.head? = some 0x67 then
        (⟨true, level, "Security access granted"⟩, [seed_request, key_request])
      else if key_response.head? = some 0x7F then
        (⟨false, level, "Key rejected"⟩, [seed_request, key_request])
      else
        (⟨false, level, "Unexpected key response"⟩, [seed_request, key_request])

/-- Number of one bits in an 8-bit value (`u8::count_ones`). -/
def countOnes8 (n : Nat) : Nat :=
  ((List.range 8).filter (fun i => n.testBit i)).length

/-- `FtdiConnection::send_5baud` (daemon-ftdi/src/ftdi.rs) as the sequence of
line levels written in bit-bang mode, each paired with the 200 ms delay that
follows it: start bit low, the 7 low data bits LSB-first, an odd-parity bit
over those 7 bits (1 when the count of ones is even), and a high stop bit. -/
def send_5baud (byte : Nat) : List (Nat × Nat) :=
  let data_bits := byte &&& 0x7F
  let ones_count := countOnes8 data_bits
  let parity_bit := if ones_count % 2 = 0 then 1 else 0
  ((0, 200) :: (List.range 7).map (fun i => ((data_bits >>> i) &&& 0x01, 200)))
    ++ [(parity_bit, 200), (1, 200)]

/-- Wire emission of `KLine::init_5baud` (daemon-ftdi/src/kline.rs): the
function stores the requested ECU address but always drives the constant
functional address `INIT_ADDRESS = 0x33` onto the bus. -/
def init_5baud_wire (_address : Nat) : List (Nat × Nat) :=
  send_5baud 0x33

/-- Spec-side restatement for C4: category letter selected by the top two
bits of the high byte (00=P, 01=C, 10=B, 11=U). -/
def dtcLetter (c : Nat) : Char :=
  if c = 0 then 'P' else if c = 1 then 'C' else if c = 2 then 'B' else 'U'

/-- Spec-side restatement for C4: the uppercase hexadecimal digit alphabet. -/
def upperHexDigits : List Char :=
  ['0', '1', '2', '3', '4', '5', '6', '7', '8', '9', 'A', 'B', 'C', 'D', 'E', 'F']

/-! ## Generic arithmetic and list helpers -/

theorem and_mod4 (x : Nat) : x &&& 3 = x % 4 := by
  have h := Nat.and_pow_two_sub_one_eq_mod x 2
  norm_num at h
  exact h

theorem and_mod16 (x : Nat) : x &&& 15 = x % 16 := by
  have h := Nat.and_pow_two_sub_one_eq_mod x 4
  norm_num at h
  exact h

theorem and_mod64 (x : Nat) : x &&& 63 = x % 64 := by
  have h := Nat.and_pow_two_sub_one_eq_mod x 6
  norm_num at h
  exact h

theorem and_mod256 (x : Nat) : x &&& 255 = x % 256 := by
  have h := Nat.and_pow_two_sub_one_eq_mod x 8
  norm_num at h
  exact h

theorem lor_two_pow_mul_add (m r k : Nat) (h : r < 2 ^ k) :
    (2 ^ k * m) ||| r = 2 ^ k * m + r := by
  apply Nat.eq_of_testBit_eq
  intro j
  rw [Nat.testBit_or, Nat.testBit_mul_pow_two_add m h j]
  by_cases hj : j < k
  · have hz : (2 ^ k * m).testBit j = false := by
      rw [Nat.mul_comm, ← Nat.shiftLeft_eq, Nat.testBit_shiftLeft]
      simp [Nat.not_le.mpr hj]
    simp [hj, hz]
  · have hr : r.testBit j = false :=
      Nat.testBit_lt_two_pow
        (lt_of_lt_of_le h (Nat.pow_le_pow_right (by norm_num) (Nat.le_of_not_lt hj)))
    rw [Nat.mul_comm, ← Nat.shiftLeft_eq, Nat.testBit_shiftLeft]
    simp [hj, hr, Nat.le_of_not_lt hj]

theorem lor16_add (x : Nat) (h : x < 16) : 16 ||| x = 16 + x := by
  have := lor_two_pow_mul_add 1 x 4 (by omega)
  norm_num at this
  exact this

theorem lor32_add (x : Nat) (h : x < 16) : 32 ||| x = 32 + x := by
  have := lor_two_pow_mul_add 2 x 4 (by omega)
  norm_num at this
  exact this

theorem lor128_add (x : Nat) (h : x < 64) : 128 ||| x = 128 + x := by
  have := lor_two_pow_mul_add 2 x 6 (by omega)
  norm_num at this
  exact this

theorem shiftl8_lor (m r : Nat) (h : r < 256) : (m <<< 8) ||| r = m * 256 + r := by
  have h2 := lor_two_pow_mul_add m r 8 (by omega)
  rw [Nat.shiftLeft_eq, Nat.mul_comm m (2 ^ 8), h2]

theorem lor_eq_zero_parts (x y : Nat) (h : x ||| y = 0) : x = 0 ∧ y = 0 := by
  constructor
  · apply Nat.eq_of_testBit_eq
    intro i
    have h2 := congrArg (fun z => Nat.testBit z i) h
    simp only [Nat.testBit_or, Nat.zero_testBit] at h2
    simp [Bool.or_eq_false_iff.mp h2 |>.1, Nat.zero_testBit]
  · apply Nat.eq_of_testBit_eq
    intro i
    have h2 := congrArg (fun z => Nat.testBit z i) h
    simp only [Nat.testBit_or, Nat.zero_testBit] at h2
    simp [Bool.or_eq_false_iff.mp h2 |>.2, Nat.zero_testBit]

theorem and_two_pow_bne (S i : Nat) : (S &&& 2 ^ i != 0) = S.testBit i := by
  rw [Nat.and_two_pow]
  cases h : S.testBit i <;> simp [h, (Nat.two_pow_pos i).ne']

theorem getD_append_length (l : List Nat) (c d : Nat) :
    (l ++ [c]).getD l.length d = c := by
  induction l with
  | nil => rfl
  | cons a t ih => simpa using ih

/-! ## C7: DTC status byte decode -/

/-- C7: for every status byte S, both status decoders (`DtcStatus::from_byte`
in the app and `From` for the daemon DtcStatus) preserve the raw byte (where
a raw field exists) and extract the eight boolean flags as bits 0 through 7
of S, in the documented order. -/
theorem c7_dtc_status_flags (S : Nat) (hS : S < 256) :
    ((DtcStatus.from_byte S).raw = S ∧
     (DtcStatus.from_byte S).test_failed = S.testBit 0 ∧
     (DtcStatus.from_byte S).test_failed_this_cycle = S.testBit 1 ∧
     (DtcStatus.from_byte S).pending = S.testBit 2 ∧
     (DtcStatus.from_byte S).confirmed = S.testBit 3 ∧
     (DtcStatus.from_byte S).test_not_completed_since_clear = S.testBit 4 ∧
     (DtcStatus.from_byte S).test_failed_since_clear = S.testBit 5 ∧
     (DtcStatus.from_byte S).test_not_completed_this_cycle = S.testBit 6 ∧
     (DtcStatus.from_byte S).warning_indicator_requested = S.testBit 7) ∧
    ((DaemonDtcStatus.fromByte S).test_failed = S.testBit 0 ∧
     (DaemonDtcStatus.fromByte S).test_failed_this_cycle = S.testBit 1 ∧
     (DaemonDtcStatus.fromByte S).pending = S.testBit 2 ∧
     (DaemonDtcStatus.fromByte S).confirmed = S.testBit 3 ∧
     (DaemonDtcStatus.fromByte S).test_not_completed_since_clear = S.testBit 4 ∧
     (DaemonDtcStatus.fromByte S).test_failed_since_clear = S.testBit 5 ∧
     (DaemonDtcStatus.fromByte S).test_not_completed_this_cycle = S.testBit 6 ∧
     (DaemonDtcStatus.fromByte S).warning_indicator = S.testBit 7) := by
  have h0 := and_two_pow_bne S 0
  have h1 := and_two_pow_bne S 1
  have h2 := and_two_pow_bne S 2
  have h3 := and_two_pow_bne S 3
  have h4 := and_two_pow_bne S 4
  have h5 := and_two_pow_bne S 5
  have h6 := and_two_pow_bne S 6
  have h7 := and_two_pow_bne S 7
  rw [show (2 : Nat) ^ 0 = 1 by norm_num] at h0
  rw [show (2 : Nat) ^ 1 = 2 by norm_num] at h1
  rw [show (2 : Nat) ^ 2 = 4 by norm_num] at h2
  rw [show (2 : Nat) ^ 3 = 8 by norm_num] at h3
  rw [show (2 : Nat) ^ 4 = 16 by norm_num] at h4
  rw [show (2 : Nat) ^ 5 = 32 by norm_num] at h5
  rw [show (2 : Nat) ^ 6 = 64 by norm_num] at h6
  rw [show (2 : Nat) ^ 7 = 128 by norm_num] at h7
  exact ⟨⟨rfl, h0, h1, h2, h3, h4, h5, h6, h7⟩, ⟨h0, h1, h2, h3, h4, h5, h6, h7⟩⟩

/-- Witness for C7 at the status byte 0x24 (pending and failed-since-clear). -/
theorem c7_dtc_status_flags_witness :
    (0x24 : Nat) < 256 ∧
    ((DtcStatus.from_byte 0x24).raw = 0x24 ∧
     (DtcStatus.from_byte 0x24).test_failed = (0x24 : Nat).testBit 0 ∧
     (DtcStatus.from_byte 0x24).test_failed_this_cycle = (0x24 : Nat).testBit 1 ∧
     (DtcStatus.from_byte 0x24).pending = (0x24 : Nat).testBit 2 ∧
     (DtcStatus.from_byte 0x24).confirmed = (0x24 : Nat).testBit 3 ∧
     (DtcStatus.from_byte 0x24).test_not_completed_since_clear = (0x24 : Nat).testBit 4 ∧
     (DtcStatus.from_byte 0x24).test_failed_since_clear = (0x24 : Nat).testBit 5 ∧
     (DtcStatus.from_byte 0x24).test_not_completed_this_cycle = (0x24 : Nat).testBit 6 ∧
     (DtcStatus.from_byte 0x24).warning_indicator_requested = (0x24 : Nat).testBit 7) ∧
    ((DaemonDtcStatus.fromByte 0x24).test_failed = (0x24 : Nat).testBit 0 ∧
     (DaemonDtcStatus.fromByte 0x24).test_failed_this_cycle = (0x24 : Nat).testBit 1 ∧
     (DaemonDtcStatus.fromByte 0x24).pending = (0x24 : Nat).testBit 2 ∧
     (DaemonDtcStatus.fromByte 0x24).confirmed = (0x24 : Nat).testBit 3 ∧
     (DaemonDtcStatus.fromByte 0x24).test_not_completed_since_clear = (0x24 : Nat).testBit 4 ∧
     (DaemonDtcStatus.fromByte 0x24).test_failed_since_clear = (0x24 : Nat).testBit 5 ∧
     (DaemonDtcStatus.fromByte 0x24).test_not_completed_this_cycle = (0x24 : Nat).testBit 6 ∧
     (DaemonDtcStatus.fromByte 0x24).warning_indicator = (0x24 : Nat).testBit 7) :=
  ⟨by decide, c7_dtc_status_flags 0x24 (by decide)⟩

/-! ## C9: 5-baud slow init -/

/-- C9: the 5-baud slow init drives the functional address 0x33 onto the bus
regardless of the requested ECU address, as 1 low start bit, the 7 low data
bits of 0x33 LSB-first (1,1,0,0,1,1,0), an odd-parity bit over those bits
(four ones, so the parity bit is 1), and a high stop bit, each level held for
200 ms. -/
theorem c9_five_baud_bit_sequence (address : Nat) :
    init_5baud_wire address = send_5baud 0x33 ∧
    init_5baud_wire address =
      [(0, 200), (1, 200), (1, 200), (0, 200), (0, 200), (1, 200), (1, 200),
       (0, 200), (1, 200), (1, 200)] ∧
    countOnes8 (0x33 &&& 0x7F) = 4 := by
  have h : send_5baud 0x33 =
      [(0, 200), (1, 200), (1, 200), (0, 200), (0, 200), (1, 200), (1, 200),
       (0, 200), (1, 200), (1, 200)] := by decide
  exact ⟨rfl, h, by decide⟩

/-! ## C2: oversized KWP2000 payloads are truncated, not rejected -/

set_option maxRecDepth 4000 in
/-- C2 counterexample: encoding a 256-byte payload does not fail; the encoder
silently truncates it to 255 bytes, producing exactly the frame of the
truncated payload (a 260-byte frame), contrary to the claimed MessageTooLong
rejection. -/
theorem c2_counterexample :
    (KwpMessage.mk 0xF1 0x12 (List.replicate 256 0)).to_bytes =
      (KwpMessage.mk 0xF1 0x12 (List.replicate 255 0)).to_bytes ∧
    (KwpMessage.mk 0xF1 0x12 (List.replicate 256 0)).to_bytes.length = 260 := by
  constructor
  · rfl
  · rfl

/-- C2 amended: for every payload longer than 255 bytes the encoder does not
reject; it logs a warning and encodes the first 255 bytes, yielding exactly
the frame of the truncated payload. -/
theorem c2_amended_truncation (m : KwpMessage) (h : 255 < m.data.length) :
    m.to_bytes = (KwpMessage.mk m.source m.target (m.data.take 255)).to_bytes := by
  unfold KwpMessage.to_bytes
  have h1 : min m.data.length 255 = 255 := Nat.min_eq_right (by omega)
  have h2 : min (m.data.take 255).length 255 = 255 := by
    simp only [List.length_take]
    omega
  simp only [h1, h2, List.take_take]
  norm_num

/-- Witness for C2 amended at a 256-byte payload. -/
theorem c2_amended_truncation_witness :
    255 < (KwpMessage.mk 1 2 (List.replicate 256 0)).data.length ∧
    (KwpMessage.mk 1 2 (List.replicate 256 0)).to_bytes =
      (KwpMessage.mk (KwpMessage.mk 1 2 (List.replicate 256 0)).source
        (KwpMessage.mk 1 2 (List.replicate 256 0)).target
        ((KwpMessage.mk 1 2 (List.replicate 256 0)).data.take 255)).to_bytes :=
  ⟨by simp only [List.length_replicate]; omega,
   c2_amended_truncation (KwpMessage.mk 1 2 (List.replicate 256 0))
     (by simp only [List.length_replicate]; omega)⟩

/-! ## C5: K-Line frame layout in the two encoder variants -/

/-- C5 counterexample: for a 64-byte payload the app KLineMessage encoder
emits format byte 0x80 (not 0xC0), no separate length byte (frame length 68,
not 69), and the byte at offset 3 is already the first payload byte. -/
theorem c5_counterexample :
    (KLineMessage.new 0x12 0xF1 (List.replicate 64 0)).to_bytes.headD 0 = 0x80 ∧
    ¬ (KLineMessage.new 0x12 0xF1 (List.replicate 64 0)).to_bytes.headD 0 = 0xC0 ∧
    (KLineMessage.new 0x12 0xF1 (List.replicate 64 0)).to_bytes.length = 68 ∧
    (KLineMessage.new 0x12 0xF1 (List.replicate 64 0)).to_bytes.getD 3 0 = 0 := by
  refine ⟨by decide, by decide, by decide, by decide⟩

/-- C5 amended: for payloads of at most 63 bytes both encoders emit
format = 0x80 OR length, then target, source, payload, checksum, with no
separate length byte.  For payloads of 64 to 255 bytes the daemon encoder
emits the claimed layout (0xC0, target, source, a separate length byte equal
to the payload length, payload, checksum), but the app KLineMessage encoder
instead keeps format 0x80 and emits no separate length byte at all. -/
theorem c5_amended_framing (source target : Nat) (data : List Nat)
    (hlen : data.length ≤ 255) :
    (data.length ≤ 63 →
      (KwpMessage.mk source target data).to_bytes =
        (0x80 ||| data.length) :: target :: source ::
          (data ++ [checksum8 ((0x80 ||| data.length) :: target :: source :: data)]) ∧
      (KLineMessage.new target source data).format = 0x80 ||| data.length ∧
      (KLineMessage.new target source data).to_bytes =
        (0x80 ||| data.length) :: target :: source ::
          (data ++ [(KLineMessage.new target source data).checksum])) ∧
    (64 ≤ data.length →
      (KwpMessage.mk source target data).to_bytes =
        0xC0 :: target :: source :: data.length ::
          (data ++ [checksum8 (0xC0 :: target :: source :: data.length :: data)]) ∧
      (KLineMessage.new target source data).format = 0x80 ∧
      (KLineMessage.new target source data).to_bytes =
        0x80 :: target :: source ::
          (data ++ [(KLineMessage.new target source data).checksum]) ∧
      (KLineMessage.new target source data).to_bytes.length = data.length + 4) := by
  constructor
  · intro h63
    have hmin : min data.length 255 = data.length := Nat.min_eq_left (by omega)
    have h64 : data.length < 64 := by omega
    refine ⟨?_, ?_, ?_⟩
    · simp [KwpMessage.to_bytes, hmin, h63, List.take_length]
    · simp [KLineMessage.new, h64]
    · simp [KLineMessage.to_bytes, KLineMessage.new, h64]
  · intro h64
    have hmin : min data.length 255 = data.length := Nat.min_eq_left (by omega)
    have hko : ¬ data.length ≤ 63 := by omega
    have hlt : ¬ data.length < 64 := by omega
    have hmod : data.length % 256 = data.length := Nat.mod_eq_of_lt (by omega)
    refine ⟨?_, ?_, ?_, ?_⟩
    · simp [KwpMessage.to_bytes, hmin, hko, hmod, List.take_length]
    · simp [KLineMessage.new, hlt]
    · simp [KLineMessage.to_bytes, KLineMessage.new, hlt]
    · simp [KLineMessage.to_bytes, KLineMessage.new]

/-- Witness for C5 amended at a 64-byte payload. -/
theorem c5_amended_framing_witness :
    (KwpMessage.mk 0xF1 0x12 (List.replicate 64 5)).to_bytes =
      0xC0 :: 0x12 :: 0xF1 :: 64 ::
        (List.replicate 64 5 ++
          [checksum8 (0xC0 :: 0x12 :: 0xF1 :: 64 :: List.replicate 64 5)]) ∧
    (KLineMessage.new 0x12 0xF1 (List.replicate 64 5)).format = 0x80 ∧
    (KLineMessage.new 0x12 0xF1 (List.replicate 64 5)).to_bytes =
      0x80 :: 0x12 :: 0xF1 ::
        (List.replicate 64 5 ++
          [(KLineMessage.new 0x12 0xF1 (List.replicate 64 5)).checksum]) ∧
    (KLineMessage.new 0x12 0xF1 (List.replicate 64 5)).to_bytes.length = 64 + 4 :=
  (c5_amended_framing 0xF1 0x12 (List.replicate 64 5)
    (by simp only [List.length_replicate]; omega)).2
    (by simp only [List.length_replicate]; omega)

/-! ## C10: daemon read_dtcs triple parsing and zero-code filtering -/

theorem dtcTriples_nil_of_short (l : List Nat) (h : l.length < 3) :
    dtcTriples l = [] := by
  rcases l with _ | ⟨a, l⟩
  · rfl
  rcases l with _ | ⟨b, l⟩
  · rfl
  rcases l with _ | ⟨c, l⟩
  · rfl
  · simp only [List.length_cons] at h
    omega

theorem dtc_loop_spec_aux (n : Nat) : ∀ (data : List Nat) (i : Nat),
    data.length ≤ i + n →
    dtc_triple_loop data i =
      ((dtcTriples (data.drop i)).filter
          (fun t => decide (t.1 ≠ 0) || decide (t.2.1 ≠ 0))).map
        (fun t => ((t.1 <<< 8) ||| t.2.1, t.2.2)) := by
  induction n with
  | zero =>
    intro data i hle
    rw [dtc_triple_loop, if_neg (by omega)]
    rw [List.drop_eq_nil_of_le (by omega)]
    rfl
  | succ n ih =>
    intro data i hle
    by_cases hc : i + 2 < data.length
    · have hi : i < data.length := by omega
      have hi1 : i + 1 < data.length := by omega
      rw [dtc_triple_loop, if_pos hc]
      rw [List.getD_eq_getElem data 0 hi, List.getD_eq_getElem data 0 hi1,
          List.getD_eq_getElem data 0 hc]
      rw [List.drop_eq_getElem_cons hi, List.drop_eq_getElem_cons hi1,
          List.drop_eq_getElem_cons hc]
      rw [show dtcTriples (data[i] :: data[i + 1] :: data[i + 2] :: data.drop (i + 3)) =
            (data[i], data[i + 1], data[i + 2]) :: dtcTriples (data.drop (i + 3)) from rfl]
      rw [List.filter_cons]
      by_cases hnz : data[i] ≠ 0 ∨ data[i + 1] ≠ 0
      · rw [if_pos hnz]
        have hb : (decide (data[i] ≠ 0) || decide (data[i + 1] ≠ 0)) = true := by
          rcases hnz with h | h <;> simp [h]
        rw [hb, if_pos rfl, List.map_cons]
        rw [ih data (i + 3) (by omega)]
      · rw [if_neg hnz]
        push_neg at hnz
        have hb : (decide (data[i] ≠ 0) || decide (data[i + 1] ≠ 0)) = false := by
          simp [hnz.1, hnz.2]
        rw [hb]
        simp only [Bool.false_eq_true, if_false]
        rw [ih data (i + 3) (by omega)]
    · rw [dtc_triple_loop, if_neg hc]
      rw [dtcTriples_nil_of_short (data.drop i) (by simp [List.length_drop]; omega)]
      rfl

/-- C10: the daemon read_dtcs response parser walks the 0x58 response data as
consecutive 3-byte (high, low, status) triples starting after the first
(count) byte, keeps packed code `high <<< 8 ||| low` with the status byte,
silently omits every triple whose two code bytes are both zero, and therefore
every returned pair carries a non-zero 16-bit code. -/
theorem c10_read_dtcs_triples_nonzero (data : List Nat) :
    read_dtcs_parse data =
      ((dtcTriples (data.drop 1)).filter
          (fun t => decide (t.1 ≠ 0) || decide (t.2.1 ≠ 0))).map
        (fun t => ((t.1 <<< 8) ||| t.2.1, t.2.2)) ∧
    (read_dtcs_parse data).all (fun p => p.1 != 0) = true := by
  have hspec : read_dtcs_parse data =
      ((dtcTriples (data.drop 1)).filter
          (fun t => decide (t.1 ≠ 0) || decide (t.2.1 ≠ 0))).map
        (fun t => ((t.1 <<< 8) ||| t.2.1, t.2.2)) := by
    unfold read_dtcs_parse
    by_cases h2 : 2 ≤ data.length
    · rw [if_pos h2]
      exact dtc_loop_spec_aux data.length data 1 (by omega)
    · rw [if_neg h2]
      rw [dtcTriples_nil_of_short (data.drop 1) (by simp [List.length_drop]; omega)]
      rfl
  refine ⟨hspec, ?_⟩
  rw [hspec, List.all_eq_true]
  intro p hp
  rw [List.mem_map] at hp
  obtain ⟨t, htmem, hpe⟩ := hp
  rw [List.mem_filter] at htmem
  have hnz : t.1 ≠ 0 ∨ t.2.1 ≠ 0 := by
    have := htmem.2
    simp only [Bool.or_eq_true, decide_eq_true_eq] at this
    exact this
  subst hpe
  simp only [bne_iff_ne, ne_eq]
  intro h0
  obtain ⟨hs, hl⟩ := lor_eq_zero_parts _ _ h0
  rw [Nat.shiftLeft_eq] at hs
  rcases hnz with h | h
  · exact h (by omega)
  · exact h hl

/-! ## C8: SecurityAccess all-zero-seed short circuit -/

/-- C8: after a positive 0x67 seed response, an all-zero (or absent) seed
makes the operation report success ("Already unlocked", at the requested
level) having sent only the seed request 27 LL — no key request is
transmitted; when some seed byte is non-zero the XOR key is computed and a
second request 27 (LL+1) KEY... is sent. -/
theorem c8_security_access_zero_seed (level : Nat) (seed_response key_response : List Nat)
    (hpos : seed_response.head? = some 0x67) :
    ((seed_response.drop 2).all (fun b => b == 0) = true →
      (bmw_security_access level seed_response key_response).1.success = true ∧
      (bmw_security_access level seed_response key_response).1.level = level ∧
      (bmw_security_access level seed_response key_response).1.message = "Already unlocked" ∧
      (bmw_security_access level seed_response key_response).2 = [[0x27, level]]) ∧
    ((seed_response.drop 2).all (fun b => b == 0) = false →
      (bmw_security_access level seed_response key_response).2 =
        [[0x27, level],
         [0x27, (level + 1) % 256] ++ calculate_key_simple (seed_response.drop 2)]) := by
  have hne : ¬ seed_response.head? = some 0x7F := by
    rw [hpos]
    intro h
    simp at h
  constructor
  · intro hall
    unfold bmw_security_access
    rw [if_neg hne, if_neg (by rw [hpos]; simp), if_pos hall]
    exact ⟨rfl, rfl, rfl, rfl⟩
  · intro hsome
    unfold bmw_security_access
    rw [if_neg hne, if_neg (by rw [hpos]; simp), if_neg (by rw [hsome]; simp)]
    by_cases hk1 : key_response.head? = some 0x67
    · rw [if_pos hk1]
    · rw [if_neg hk1]
      by_cases hk2 : key_response.head? = some 0x7F
      · rw [if_pos hk2]
      · rw [if_neg hk2]

/-- Witness for C8: Scenario E request 27 01 answered 67 01 00 00 00 00 is
treated as already unlocked with no key request sent, and a non-zero seed
variant sends the key at sub-function 2. -/
theorem c8_security_access_zero_seed_witness :
    (([0x67, 0x01, 0, 0, 0, 0] : List Nat).drop 2).all (fun b => b == 0) = true ∧
    ((bmw_security_access 1 [0x67, 0x01, 0, 0, 0, 0] []).1.success = true ∧
     (bmw_security_access 1 [0x67, 0x01, 0, 0, 0, 0] []).1.level = 1 ∧
     (bmw_security_access 1 [0x67, 0x01, 0, 0, 0, 0] []).1.message = "Already unlocked" ∧
     (bmw_security_access 1 [0x67, 0x01, 0, 0, 0, 0] []).2 = [[0x27, 1]]) ∧
    (bmw_security_access 1 [0x67, 0x01, 0, 1, 0, 0] [0x67, 0x02]).2 =
      [[0x27, 1], [0x27, (1 + 1) % 256] ++
        calculate_key_simple (([0x67, 0x01, 0, 1, 0, 0] : List Nat).drop 2)] :=
  ⟨by decide,
   (c8_security_access_zero_seed 1 [0x67, 0x01, 0, 0, 0, 0] [] (by decide)).1 (by decide),
   (c8_security_access_zero_seed 1 [0x67, 0x01, 0, 1, 0, 0] [0x67, 0x02]
     (by decide)).2 (by decide)⟩

/-! ## C4: DTC textual code decoding -/

theorem hexDigit_mem_upper (x : Nat) (h : x < 16) : hexDigit x ∈ upperHexDigits := by
  interval_cases x <;> decide

theorem decDigit_eq_hexDigit (x : Nat) (h : x < 10) : decDigit x = hexDigit x := by
  simp [decDigit, hexDigit, h]

/-- C4: for every pair of DTC code bytes, the app decoder produces the
category letter selected by the top two bits of the high byte followed by the
four zero-padded uppercase hex digits of the remaining 14 bits; the daemon
decoder applied to the packed 16-bit code produces exactly the same string;
the digit part has length 4 and consists of uppercase hex digits only. -/
theorem c4_dtc_code_format (h l : Nat) (hh : h < 256) (hl : l < 256) :
    Dtc.bytes_to_code h l =
      String.mk (dtcLetter (h / 64) :: rustHexPad4 ((h % 64) * 256 + l)) ∧
    decode_dtc ((h <<< 8) ||| l) = Dtc.bytes_to_code h l ∧
    dtcLetter (h / 64) ∈ ['P', 'C', 'B', 'U'] ∧
    (rustHexPad4 ((h % 64) * 256 + l)).length = 4 ∧
    ∀ c ∈ rustHexPad4 ((h % 64) * 256 + l), c ∈ upperHexDigits := by
  have hv : h / 64 = 0 ∨ h / 64 = 1 ∨ h / 64 = 2 ∨ h / 64 = 3 := by omega
  have e1 : (h >>> 6) &&& 3 = h / 64 := by
    rw [Nat.shiftRight_eq_div_pow, and_mod4]
    omega
  have e2 : h &&& 63 = h % 64 := and_mod64 h
  have e3 : ((h % 64) <<< 8) ||| l = (h % 64) * 256 + l := shiftl8_lor (h % 64) l hl
  have hA : Dtc.bytes_to_code h l =
      String.mk (dtcLetter (h / 64) :: rustHexPad4 ((h % 64) * 256 + l)) := by
    unfold Dtc.bytes_to_code
    simp only [e1, e2, e3]
    rcases hv with hv | hv | hv | hv <;> rw [hv] <;> rfl
  have hB : decode_dtc ((h <<< 8) ||| l) = Dtc.bytes_to_code h l := by
    have ecode : (h <<< 8) ||| l = 256 * h + l := by
      rw [shiftl8_lor h l hl]
      ring
    rw [ecode, hA]
    unfold decode_dtc
    have d1 : ((256 * h + l) >>> 14) &&& 3 = h / 64 := by
      rw [Nat.shiftRight_eq_div_pow, and_mod4]
      omega
    have d2 : ((256 * h + l) >>> 12) &&& 3 = ((h % 64) * 256 + l) / 4096 % 16 := by
      rw [Nat.shiftRight_eq_div_pow, and_mod4]
      omega
    have d3 : ((256 * h + l) >>> 8) &&& 15 = ((h % 64) * 256 + l) / 256 % 16 := by
      rw [Nat.shiftRight_eq_div_pow, and_mod16]
      omega
    have d4 : ((256 * h + l) >>> 4) &&& 15 = ((h % 64) * 256 + l) / 16 % 16 := by
      rw [Nat.shiftRight_eq_div_pow, and_mod16]
      omega
    have d5 : (256 * h + l) &&& 15 = ((h % 64) * 256 + l) % 16 := by
      rw [and_mod16]
      omega
    simp only [d1, d2, d3, d4, d5]
    rw [decDigit_eq_hexDigit _ (by omega)]
    unfold rustHexPad4
    rcases hv with hv | hv | hv | hv <;> rw [hv] <;> rfl
  refine ⟨hA, hB, ?_, rfl, ?_⟩
  · rcases hv with hv | hv | hv | hv <;> rw [hv] <;> decide
  · intro c hc
    simp only [rustHexPad4, List.mem_cons, List.not_mem_nil, or_false] at hc
    rcases hc with rfl | rfl | rfl | rfl
    · exact hexDigit_mem_upper _ (by omega)
    · exact hexDigit_mem_upper _ (by omega)
    · exact hexDigit_mem_upper _ (by omega)
    · exact hexDigit_mem_upper _ (by omega)

/-- Witness for C4 at the spec example bytes 0x2A 0xAF, which decode to
P2AAF in both variants. -/
theorem c4_dtc_code_format_witness :
    decode_dtc ((0x2A <<< 8) ||| 0xAF) = Dtc.bytes_to_code 0x2A 0xAF ∧
    Dtc.bytes_to_code 0x2A 0xAF = "P2AAF" :=
  ⟨(c4_dtc_code_format 0x2A 0xAF (by decide) (by decide)).2.1, by decide⟩

/-! ## C1: KWP2000 encode/decode roundtrip -/

theorem take_tail3c (a b d x p : Nat) (l : List Nat) :
    (a :: b :: d :: ((p :: l) ++ [x])).take (l.length + 1 + 3) = a :: b :: d :: p :: l := by
  rw [show a :: b :: d :: ((p :: l) ++ [x]) = (a :: b :: d :: p :: l) ++ [x] by simp,
      show l.length + 1 + 3 = (a :: b :: d :: p :: l).length by simp [List.length_cons],
      List.take_left]

theorem getD_tail3c (a b d x p : Nat) (l : List Nat) :
    (a :: b :: d :: ((p :: l) ++ [x])).getD (l.length + 1 + 3) 0 = x := by
  rw [show a :: b :: d :: ((p :: l) ++ [x]) = (a :: b :: d :: p :: l) ++ [x] by simp,
      show l.length + 1 + 3 = (a :: b :: d :: p :: l).length by simp [List.length_cons],
      getD_append_length]

theorem take_tail4c (a b d e x p : Nat) (l : List Nat) :
    (a :: b :: d :: e :: ((p :: l) ++ [x])).take (l.length + 1 + 4) =
      a :: b :: d :: e :: p :: l := by
  rw [show a :: b :: d :: e :: ((p :: l) ++ [x]) = (a :: b :: d :: e :: p :: l) ++ [x] by simp,
      show l.length + 1 + 4 = (a :: b :: d :: e :: p :: l).length by simp [List.length_cons],
      List.take_left]

theorem getD_tail4c (a b d e x p : Nat) (l : List Nat) :
    (a :: b :: d :: e :: ((p :: l) ++ [x])).getD (l.length + 1 + 4) 0 = x := by
  rw [show a :: b :: d :: e :: ((p :: l) ++ [x]) = (a :: b :: d :: e :: p :: l) ++ [x] by simp,
      show l.length + 1 + 4 = (a :: b :: d :: e :: p :: l).length by simp [List.length_cons],
      getD_append_length]

theorem kwp_parse_frame_short (t s0 p0 : Nat) (prest : List Nat) (c : Nat)
    (h63 : (p0 :: prest).length ≤ 63)
    (hc : c = checksum8 ((128 + (p0 :: prest).length) :: t :: s0 :: (p0 :: prest))) :
    KwpResponse.parse
        ((128 + (p0 :: prest).length) :: t :: s0 :: ((p0 :: prest) ++ [c])) =
      some ⟨s0, t, p0, prest⟩ := by
  simp only [List.length_cons] at h63 hc
  simp only [KwpResponse.parse, List.length_cons, List.length_append, List.length_nil,
    List.getD_cons_zero, List.getD_cons_succ]
  rw [if_neg (by omega)]
  rw [if_neg (by omega : ¬ 192 ≤ 128 + (prest.length + 1))]
  rw [if_pos (by omega : 128 ≤ 128 + (prest.length + 1))]
  rw [show 128 + (prest.length + 1) &&& 63 = prest.length + 1 from by rw [and_mod64]; omega]
  simp only []
  rw [if_neg (by omega)]
  rw [show 3 + (prest.length + 1) + 1 - 1 = prest.length + 1 + 3 from by omega]
  rw [take_tail3c, getD_tail3c]
  rw [show List.drop 3 ((128 + (prest.length + 1)) :: t :: s0 :: ((p0 :: prest) ++ [c])) =
        p0 :: (prest ++ [c]) from rfl]
  rw [List.take_succ_cons, List.take_left]
  rw [hc]
  rw [if_neg (by simp)]
  rw [if_neg (by simp)]
  simp [List.headI]

theorem kwp_parse_frame_long (t s0 p0 : Nat) (prest : List Nat) (c : Nat)
    (h64 : 64 ≤ (p0 :: prest).length) (h255 : (p0 :: prest).length ≤ 255)
    (hc : c = checksum8 (192 :: t :: s0 :: (p0 :: prest).length :: (p0 :: prest))) :
    KwpResponse.parse
        (192 :: t :: s0 :: (p0 :: prest).length :: ((p0 :: prest) ++ [c])) =
      some ⟨s0, t, p0, prest⟩ := by
  simp only [List.length_cons] at h64 h255 hc
  simp only [KwpResponse.parse, List.length_cons, List.length_append, List.length_nil,
    List.getD_cons_zero, List.getD_cons_succ]
  rw [if_neg (by omega)]
  rw [if_pos (by omega : (192 : Nat) ≤ 192)]
  rw [if_neg (by omega)]
  simp only []
  rw [if_neg (by omega)]
  rw [show 4 + (prest.length + 1) + 1 - 1 = prest.length + 1 + 4 from by omega]
  rw [take_tail4c, getD_tail4c]
  rw [show List.drop 4 (192 :: t :: s0 :: (prest.length + 1) :: ((p0 :: prest) ++ [c])) =
        p0 :: (prest ++ [c]) from rfl]
  rw [List.take_succ_cons, List.take_left]
  rw [hc]
  rw [if_neg (by simp)]
  rw [if_neg (by simp)]
  simp [List.headI]

/-- C1: for every source byte, target byte and non-empty payload of at most
255 bytes, decoding the encoder's frame succeeds and returns the same source
and target, the first payload byte as the service, and the remaining payload
bytes as data — in particular the encoder's checksum always validates. -/
theorem c1_kwp_roundtrip (source target p0 : Nat) (prest : List Nat)
    (hs : source < 256) (ht : target < 256)
    (hlen : (p0 :: prest).length ≤ 255) :
    KwpResponse.parse ((KwpMessage.mk source target (p0 :: prest)).to_bytes) =
      some ⟨source, target, p0, prest⟩ := by
  by_cases h63 : (p0 :: prest).length ≤ 63
  · have hb : (KwpMessage.mk source target (p0 :: prest)).to_bytes =
        (128 + (p0 :: prest).length) :: target :: source ::
          ((p0 :: prest) ++
            [checksum8 ((128 + (p0 :: prest).length) :: target :: source :: (p0 :: prest))]) := by
      have h63n : prest.length + 1 ≤ 63 := by
        simpa using h63
      have e1 : (prest.length + 1) ⊓ 255 = prest.length + 1 := by omega
      have e2 : prest.length ≤ 62 := by omega
      have hlor : (128 : Nat) ||| (prest.length + 1) = 128 + (prest.length + 1) :=
        lor128_add _ (by omega)
      simp [KwpMessage.to_bytes, e1, e2, hlor, List.take_succ_cons, List.take_length]
    rw [hb]
    exact kwp_parse_frame_short target source p0 prest _ h63 rfl
  · have h64 : 64 ≤ (p0 :: prest).length := by omega
    have hb : (KwpMessage.mk source target (p0 :: prest)).to_bytes =
        192 :: target :: source :: (p0 :: prest).length ::
          ((p0 :: prest) ++
            [checksum8 (192 :: target :: source :: (p0 :: prest).length :: (p0 :: prest))]) := by
      have hlenn : prest.length + 1 ≤ 255 := by
        simpa using hlen
      have e1 : (prest.length + 1) ⊓ 255 = prest.length + 1 := by omega
      have e2 : ¬ prest.length ≤ 62 := by
        simp only [List.length_cons] at h63
        omega
      have e3 : (prest.length + 1) % 256 = prest.length + 1 := by omega
      simp [KwpMessage.to_bytes, e1, e2, e3, List.take_succ_cons, List.take_length]
    rw [hb]
    exact kwp_parse_frame_long target source p0 prest _ h64 hlen rfl

/-- Witness for C1 at the TesterPresent frame of the source's unit test
(source 0xF1, target 0x12, payload 3E). -/
theorem c1_kwp_roundtrip_witness :
    (0xF1 : Nat) < 256 ∧ (0x12 : Nat) < 256 ∧ ([0x3E] : List Nat).length ≤ 255 ∧
    KwpResponse.parse ((KwpMessage.mk 0xF1 0x12 [0x3E]).to_bytes) =
      some ⟨0xF1, 0x12, 0x3E, []⟩ :=
  ⟨by decide, by decide, by decide,
   c1_kwp_roundtrip 0xF1 0x12 0x3E [] (by decide) (by decide) (by decide)⟩

/-! ## C3 and C6: ISO-TP segmentation, reassembly, and flow control -/


theorem pad8_of_le (l : List Nat) (h : l.length ≤ 8) :
    pad8 l = l ++ List.replicate (8 - l.length) 0 := by
  unfold pad8
  rw [List.take_append_eq_append_take, List.take_of_length_le h, List.take_replicate]
  have hm : min (8 - l.length) 8 = 8 - l.length := Nat.min_eq_left (by omega)
  rw [hm]

theorem pad8_headD (a : Nat) (l : List Nat) : (pad8 (a :: l)).headD 0 = a := by
  simp [pad8]

theorem and240_of_lt (x : Nat) (h : x < 16) : x &&& 240 = 0 := by
  interval_cases x <;> rfl

theorem and240_16 (x : Nat) (h : x < 16) : (16 + x) &&& 240 = 16 := by
  interval_cases x <;> rfl

theorem and240_32 (x : Nat) (h : x < 16) : (32 + x) &&& 240 = 32 := by
  interval_cases x <;> rfl

theorem from_can_single (data : List Nat) (h7 : data.length ≤ 7) :
    IsoTpFrame.from_can_data ((IsoTpFrame.mk 0x00 data none none).to_can_data) =
      .ok ⟨0x00, data, none, none⟩ := by
  have hwire : (IsoTpFrame.mk 0x00 data none none).to_can_data =
      data.length :: (data ++ List.replicate (7 - data.length) 0) := by
    simp only [IsoTpFrame.to_can_data]
    rw [if_pos (by decide : (0 : Nat) &&& 0xF0 = 0x00)]
    rw [Nat.mod_eq_of_lt (by omega), List.take_of_length_le h7]
    rw [pad8_of_le _ (by simp [List.length_cons]; omega)]
    simp
  rw [hwire]
  simp only [IsoTpFrame.from_can_data]
  rw [if_pos (by rw [and240_of_lt _ (by omega)] : data.length &&& 0xF0 = 0x00)]
  rw [show data.length &&& 0x0F = data.length from by rw [and_mod16]; omega]
  rw [if_neg (by simp only [List.length_cons, List.length_append, List.length_replicate]; omega)]
  simp only [List.drop_succ_cons, List.drop_zero, List.take_left]

theorem cf_wire (chunk : List Nat) (s : Nat) (hs : s < 16) (h7 : chunk.length <= 7) :
    (IsoTpFrame.consecutive chunk s).to_can_data =
      (32 + s) :: (chunk ++ List.replicate (7 - chunk.length) 0) := by
  simp only [IsoTpFrame.consecutive, IsoTpFrame.to_can_data]
  rw [if_neg (by decide), if_neg (by decide), if_pos (by decide)]
  rw [show (Option.some (s &&& 0x0F)).getD 0 = s &&& 0x0F from rfl]
  rw [show (s &&& 0x0F) &&& 0x0F = s from by rw [and_mod16, and_mod16]; omega]
  rw [show (0x20 : Nat) ||| s = 32 + s from lor32_add s hs]
  rw [List.take_of_length_le h7]
  rw [pad8_of_le _ (by simp only [List.length_cons]; omega)]
  have he : 8 - ((32 + s) :: chunk).length = 7 - chunk.length := by
    simp only [List.length_cons]
    omega
  rw [he]
  simp

theorem from_can_consecutive (chunk : List Nat) (s : Nat) (hs : s < 16)
    (h7 : chunk.length <= 7) :
    IsoTpFrame.from_can_data ((IsoTpFrame.consecutive chunk s).to_can_data) =
      .ok ⟨0x20, chunk ++ List.replicate (7 - chunk.length) 0, some s, none⟩ := by
  rw [cf_wire chunk s hs h7]
  simp only [IsoTpFrame.from_can_data]
  rw [show (32 + s) &&& 0xF0 = 32 from and240_32 s hs]
  rw [if_neg (by omega), if_neg (by omega), if_pos rfl]
  rw [show (32 + s) &&& 0x0F = s from by rw [and_mod16]; omega]
  simp

theorem ff_wire (data : List Nat) (h8 : 8 <= data.length) (hL : data.length <= 4095) :
    (IsoTpFrame.first data (data.length % 65536)).to_can_data =
      (16 + data.length / 256) :: (data.length % 256) :: data.take 6 := by
  have hmod : data.length % 65536 = data.length := Nat.mod_eq_of_lt (by omega)
  simp only [IsoTpFrame.first, IsoTpFrame.to_can_data]
  rw [if_neg (by decide), if_pos (by decide)]
  rw [show (Option.some (data.length % 65536)).getD 0 = data.length % 65536 from rfl, hmod]
  rw [Nat.shiftRight_eq_div_pow]
  rw [show (2 : Nat) ^ 8 = 256 from by norm_num]
  rw [show data.length / 256 % 256 = data.length / 256 from Nat.mod_eq_of_lt (by omega)]
  rw [show data.length / 256 &&& 0x0F = data.length / 256 from by rw [and_mod16]; omega]
  rw [show (0x10 : Nat) ||| data.length / 256 = 16 + data.length / 256 from
        lor16_add _ (by omega)]
  rw [and_mod256]
  rw [show min 6 data.length = 6 from Nat.min_eq_left (by omega)]
  rw [List.take_take]
  rw [show min 6 6 = 6 from rfl]
  rw [pad8_of_le _ (by simp only [List.length_cons, List.length_take]; omega)]
  have he : 8 - ((16 + data.length / 256) :: (data.length % 256) :: data.take 6).length = 0 := by
    simp only [List.length_cons, List.length_take]
    omega
  rw [he]
  simp

theorem from_can_first (data : List Nat) (h8 : 8 <= data.length) (hL : data.length <= 4095) :
    IsoTpFrame.from_can_data ((IsoTpFrame.first data (data.length % 65536)).to_can_data) =
      .ok ⟨0x10, data.take 6, none, some data.length⟩ := by
  rw [ff_wire data h8 hL]
  simp only [IsoTpFrame.from_can_data]
  rw [show (16 + data.length / 256) &&& 0xF0 = 16 from and240_16 _ (by omega)]
  rw [if_neg (by omega), if_pos rfl]
  rw [if_neg (by simp only [List.length_cons, List.length_take]; omega)]
  rw [show (16 + data.length / 256) &&& 0x0F = data.length / 256 from by rw [and_mod16]; omega]
  simp only [List.getD_cons_zero, List.getD_cons_succ, List.drop_succ_cons, List.drop_zero]
  rw [shiftl8_lor _ _ (by omega)]
  rw [show data.length / 256 * 256 + data.length % 256 = data.length from by omega]
  rw [List.take_of_length_le (by simp only [List.length_take]; omega)]

theorem cfFrames_nil (s : Nat) : cfFrames [] s = [] := by
  rw [cfFrames]
  simp

theorem cfFrames_cons (rest : List Nat) (s : Nat) (h : ¬ rest = []) :
    cfFrames rest s =
      (IsoTpFrame.consecutive (rest.take 7) s).to_can_data ::
        cfFrames (rest.drop 7) ((s + 1) &&& 0x0F) := by
  rw [cfFrames]
  rw [if_neg h]

theorem recvCFs_ge (inbox sent : List (List Nat)) (acc : List Nat) (total s : Nat)
    (h : ¬ acc.length < total) :
    recvCFs inbox sent acc total s = (.ok (acc.take total), ⟨inbox, sent⟩) := by
  rw [recvCFs.eq_def]
  rw [if_neg h]

theorem recvCFs_cfFrames (n : Nat) : ∀ (rest acc : List Nat) (sent : List (List Nat)) (s : Nat),
    rest.length ≤ n → s < 16 →
    recvCFs (cfFrames rest s) sent acc (acc.length + rest.length) s =
      (.ok (acc ++ rest), ⟨[], sent⟩) := by
  induction n with
  | zero =>
    intro rest acc sent s hn hs
    have hr : rest = [] := List.eq_nil_of_length_eq_zero (by omega)
    subst hr
    rw [cfFrames_nil]
    rw [recvCFs_ge _ _ _ _ _ (by simp)]
    simp
  | succ n ih =>
    intro rest acc sent s hn hs
    by_cases hr : rest = []
    · subst hr
      rw [cfFrames_nil]
      rw [recvCFs_ge _ _ _ _ _ (by simp)]
      simp
    · rw [cfFrames_cons rest s hr]
      rw [recvCFs]
      rw [if_pos (by have := List.length_pos.mpr hr; omega)]
      rw [from_can_consecutive (rest.take 7) s hs (by simp only [List.length_take]; omega)]
      simp only []
      rw [if_neg (by simp)]
      rw [if_neg (by simp)]
      have hs' : (s + 1) &&& 0x0F < 16 := by
        rw [and_mod16]
        omega
      by_cases h7 : rest.length ≤ 7
      · rw [show rest.take 7 = rest from List.take_of_length_le (by omega)]
        rw [show rest.drop 7 = ([] : List Nat) from List.drop_eq_nil_of_le (by omega)]
        rw [cfFrames_nil]
        rw [recvCFs_ge _ _ _ _ _
          (by simp only [List.length_append, List.length_replicate]; omega)]
        rw [show acc ++ (rest ++ List.replicate (7 - rest.length) 0) =
              (acc ++ rest) ++ List.replicate (7 - rest.length) 0 from by
            simp [List.append_assoc]]
        rw [show acc.length + rest.length = (acc ++ rest).length from by
            simp [List.length_append]]
        rw [List.take_left]
      · have h7' : (rest.take 7).length = 7 := by
          simp only [List.length_take]
          omega
        rw [h7', Nat.sub_self, List.replicate_zero, List.append_nil]
        have heq : acc.length + rest.length =
            (acc ++ rest.take 7).length + (rest.drop 7).length := by
          simp only [List.length_append, List.length_take, List.length_drop]
          omega
        rw [heq]
        rw [ih (rest.drop 7) (acc ++ rest.take 7) sent ((s + 1) &&& 0x0F)
            (by simp only [List.length_drop]; omega) hs']
        rw [List.append_assoc, List.take_append_drop]

theorem cfFrames_length (n : Nat) : ∀ (rest : List Nat) (s : Nat), rest.length ≤ n →
    (cfFrames rest s).length = (rest.length + 6) / 7 := by
  induction n with
  | zero =>
    intro rest s hn
    have hr : rest = [] := List.eq_nil_of_length_eq_zero (by omega)
    subst hr
    rw [cfFrames_nil]
    simp
  | succ n ih =>
    intro rest s hn
    by_cases hr : rest = []
    · subst hr
      rw [cfFrames_nil]
      simp
    · rw [cfFrames_cons rest s hr]
      simp only [List.length_cons]
      rw [ih (rest.drop 7) _ (by simp only [List.length_drop]; omega)]
      simp only [List.length_drop]
      have hp : 0 < rest.length := List.length_pos.mpr hr
      omega

theorem cfFrames_head (n : Nat) : ∀ (rest : List Nat) (s j : Nat), rest.length ≤ n → s < 16 →
    j < (cfFrames rest s).length →
    ((cfFrames rest s).getD j []).headD 0 = 32 + ((s + j) % 16) := by
  induction n with
  | zero =>
    intro rest s j hn hs hj
    have hr : rest = [] := List.eq_nil_of_length_eq_zero (by omega)
    subst hr
    rw [cfFrames_nil] at hj
    simp at hj
  | succ n ih =>
    intro rest s j hn hs hj
    by_cases hr : rest = []
    · subst hr
      rw [cfFrames_nil] at hj
      simp at hj
    · rw [cfFrames_cons rest s hr] at hj ⊢
      rcases j with _ | j
      · simp only [List.getD_cons_zero]
        rw [cf_wire _ _ hs (by simp only [List.length_take]; omega)]
        simp only [List.headD_cons]
        omega
      · simp only [List.getD_cons_succ]
        rw [ih (rest.drop 7) ((s + 1) &&& 0x0F) j
            (by simp only [List.length_drop]; omega)
            (by rw [and_mod16]; omega)
            (by simp only [List.length_cons] at hj; omega)]
        rw [and_mod16]
        omega

/-- C3: ISO-TP segmentation and reassembly roundtrip.  For payloads of 1 to
4095 bytes: at most 7 bytes gives exactly one Single Frame; 8 or more gives a
First Frame carrying the 12-bit total length and the first 6 bytes, followed
by ceil((L-6)/7) Consecutive Frames whose sequence nibbles start at 1 and
step modulo 16 (so 15 wraps to 0); and the receiver reassembles this exact
frame sequence back to the payload. -/
theorem c3_isotp_segmentation_roundtrip (data : List Nat)
    (h1 : 1 ≤ data.length) (h2 : data.length ≤ 4095) :
    ∃ frames, sendFrames data = .ok frames ∧
      (data.length ≤ 7 → frames = [pad8 (data.length :: data)]) ∧
      (8 ≤ data.length →
        frames.headD [] =
          pad8 ((16 + data.length / 256) :: (data.length % 256) :: data.take 6) ∧
        frames.length = 1 + (data.length - 6 + 6) / 7 ∧
        ∀ j, j + 1 < frames.length →
          (frames.getD (j + 1) []).headD 0 = 32 + ((1 + j) % 16)) ∧
      (receive_isotp_message ⟨frames, []⟩).1 = .ok data := by
  have hne : data.isEmpty = false := by
    rcases data with _ | ⟨a, l⟩
    · simp at h1
    · rfl
  by_cases h7 : data.length ≤ 7
  · refine ⟨[(IsoTpFrame.mk 0x00 data none none).to_can_data], ?_, ?_, ?_, ?_⟩
    · unfold sendFrames
      rw [if_neg (by simp [hne]), if_pos h7]
      unfold IsoTpFrame.single
      rw [if_neg (by omega)]
      rfl
    · intro _
      simp only [IsoTpFrame.to_can_data]
      rw [if_pos (by decide)]
      rw [Nat.mod_eq_of_lt (by omega), List.take_of_length_le h7]
    · intro h8
      exact absurd h8 (by omega)
    · simp only [receive_isotp_message]
      rw [from_can_single data h7]
      simp only []
      rw [if_pos trivial]
  · have h8 : 8 ≤ data.length := by omega
    refine ⟨(IsoTpFrame.first data (data.length % 65536)).to_can_data ::
              cfFrames (data.drop 6) 1, ?_, ?_, ?_, ?_⟩
    · unfold sendFrames
      rw [if_neg (by simp [hne]), if_neg (by omega)]
    · intro hc
      exact absurd hc (by omega)
    · intro _
      refine ⟨?_, ?_, ?_⟩
      · simp only [List.headD_cons]
        rw [ff_wire data h8 h2]
        rw [pad8_of_le _ (by simp only [List.length_cons, List.length_take]; omega)]
        have he : 8 - ((16 + data.length / 256) ::
            (data.length % 256) :: data.take 6).length = 0 := by
          simp only [List.length_cons, List.length_take]
          omega
        rw [he]
        simp
      · simp only [List.length_cons]
        rw [cfFrames_length (data.drop 6).length _ _ le_rfl]
        simp only [List.length_drop]
        omega
      · intro j hj
        simp only [List.getD_cons_succ]
        rw [cfFrames_head (data.drop 6).length _ _ j le_rfl (by omega)
            (by simp only [List.length_cons] at hj; omega)]
    · simp only [receive_isotp_message]
      rw [from_can_first data h8 h2]
      simp only []
      rw [if_pos trivial]
      rw [show (some data.length).getD 0 = data.length from rfl]
      rw [show data.length = (data.take 6).length + (data.drop 6).length from by
            simp only [List.length_take, List.length_drop]; omega]
      rw [recvCFs_cfFrames (data.drop 6).length (data.drop 6) (data.take 6) [] 1
            le_rfl (by omega)]
      rw [List.take_append_drop]
      simp

/-- Witness for C3 at a 120-byte payload (17 consecutive frames, so the
sequence nibble wraps from 15 to 0 within the run). -/
theorem c3_isotp_segmentation_roundtrip_witness :
    1 ≤ (List.replicate 120 (5 : Nat)).length ∧
    (List.replicate 120 (5 : Nat)).length ≤ 4095 ∧
    (∃ frames, sendFrames (List.replicate 120 5) = .ok frames ∧
      ((List.replicate 120 (5 : Nat)).length ≤ 7 →
        frames = [pad8 ((List.replicate 120 (5 : Nat)).length :: List.replicate 120 5)]) ∧
      (8 ≤ (List.replicate 120 (5 : Nat)).length →
        frames.headD [] =
          pad8 ((16 + (List.replicate 120 (5 : Nat)).length / 256) ::
            ((List.replicate 120 (5 : Nat)).length % 256) ::
              (List.replicate 120 (5 : Nat)).take 6) ∧
        frames.length = 1 + ((List.replicate 120 (5 : Nat)).length - 6 + 6) / 7 ∧
        ∀ j, j + 1 < frames.length →
          (frames.getD (j + 1) []).headD 0 = 32 + ((1 + j) % 16)) ∧
      (receive_isotp_message ⟨frames, []⟩).1 = .ok (List.replicate 120 5)) :=
  ⟨by simp, by simp,
   c3_isotp_segmentation_roundtrip (List.replicate 120 5) (by simp) (by simp)⟩

theorem recvCFs_sent (inbox : List (List Nat)) :
    ∀ (sent : List (List Nat)) (acc : List Nat) (total exp : Nat),
    ((recvCFs inbox sent acc total exp).2).sent = sent := by
  induction inbox with
  | nil =>
    intro sent acc total exp
    rw [recvCFs.eq_def]
    by_cases h : acc.length < total
    · rw [if_pos h]
    · rw [if_neg h]
  | cons f rest ih =>
    intro sent acc total exp
    rw [recvCFs.eq_def]
    by_cases h : acc.length < total
    · rw [if_pos h]
      simp only []
      cases hfc : IsoTpFrame.from_can_data f with
      | error e => simp [hfc]
      | ok cf =>
        simp only [hfc]
        by_cases h1 : cf.frame_type ≠ 0x20
        · rw [if_pos h1]
        · rw [if_neg h1]
          by_cases h2 : cf.sequence.getD 0 ≠ exp
          · rw [if_pos h2]
          · rw [if_neg h2]
            exact ih sent (acc ++ cf.data) total ((exp + 1) &&& 0x0F)
    · rw [if_neg h]

theorem receive_isotp_sent (w : Wire) :
    ((receive_isotp_message w).2).sent = w.sent := by
  rcases w with ⟨inbox, sent⟩
  rcases inbox with _ | ⟨f, rest⟩
  · rfl
  · cases hfc : IsoTpFrame.from_can_data f with
    | error e => simp [receive_isotp_message, hfc]
    | ok fr =>
      simp only [receive_isotp_message, hfc]
      by_cases h0 : fr.frame_type = 0x00
      · simp [h0]
      · by_cases h10 : fr.frame_type = 0x10
        · simp [h0, h10, recvCFs_sent]
        · simp [h0, h10]

/-- C6 counterexample: on the concrete First Frame + Consecutive Frame
exchange of the spec's Scenario D, reassembly succeeds yet the receive path
transmits nothing at all — in particular the Flow Control frame the claim
says is emitted is not among the transmitted frames. -/
theorem c6_counterexample :
    (receive_isotp_message ⟨[[0x10, 0x0A, 0x62, 0xAB, 0x11, 0x00, 0x0A, 0x00],
                             [0x21, 0, 0, 0, 0, 0, 0, 0]], []⟩).1 =
      .ok [0x62, 0xAB, 0x11, 0x00, 0x0A, 0x00, 0x00, 0x00, 0x00, 0x00] ∧
    ((receive_isotp_message ⟨[[0x10, 0x0A, 0x62, 0xAB, 0x11, 0x00, 0x0A, 0x00],
                              [0x21, 0, 0, 0, 0, 0, 0, 0]], []⟩).2).sent = [] ∧
    ¬ (IsoTpFrame.flow_control 0 0 0).to_can_data ∈
        ((receive_isotp_message ⟨[[0x10, 0x0A, 0x62, 0xAB, 0x11, 0x00, 0x0A, 0x00],
                                  [0x21, 0, 0, 0, 0, 0, 0, 0]], []⟩).2).sent := by
  refine ⟨rfl, rfl, by decide⟩

/-- C6 amended: after a First Frame the receiver constructs a Flow Control
frame with flag Continue (0), block size 0 and separation time 0, but never
transmits it: on every wire state the receive path leaves the transmitted
frame list unchanged and proceeds directly to the Consecutive Frames. -/
theorem c6_no_flow_control_transmitted (w : Wire) :
    ((receive_isotp_message w).2).sent = w.sent ∧
    (IsoTpFrame.flow_control 0 0 0).frame_type = 0x30 ∧
    (IsoTpFrame.flow_control 0 0 0).data = [0, 0, 0] :=
  ⟨receive_isotp_sent w, rfl, rfl⟩
